import Mathlib

/-!
Verification development for `osmnx/pois.py` (POI download and parsing).

The module is shallowly embedded: Python dictionaries become association
lists, pandas/geopandas tables become `List (Nat × Row)` keyed by the osm id,
shapely geometries become the inductive `Geom` over exact rationals (Python
floats are modelled as `ℚ`), raised exceptions become `Except`/`Option`
results, and `log(...)` calls become explicit `LogEvent` values.  The
`overpass_request` network call, the geocoders and `bbox_from_point` are
external collaborators; functions are modelled up to the payload handed to
them (or take the response as an argument).
-/

namespace Pois

/-- Error taxonomy. `invalidFilter` models the `TypeError` raised by
`create_poi_query` for a malformed tags dict (the spec's
`InvalidFilterError`); `missingArea` models the `ValueError` raised by
`osm_poi_download` when neither polygon nor full bbox is given (the spec's
`MissingAreaError`); `unboundLocalPoi` models the `UnboundLocalError` hit by
`return poi` in `parse_osm_node` after its `except` branch ran; `keyError`
models an uncaught `KeyError` (e.g. in `parse_nodes_coords`). -/
inductive PErr where
  | invalidFilter
  | missingArea
  | unboundLocalPoi
  | keyError
deriving DecidableEq, Repr

/-- Shapely geometries, over exact rationals.  A polygon is kept as the
coordinate ring it was built from ((lon, lat) points, closure implicit as in
shapely); a multipolygon as the list of such rings. -/
inductive Geom where
  | point (lon lat : ℚ)
  | polygon (ring : List (ℚ × ℚ))
  | multipolygon (rings : List (List (ℚ × ℚ)))
deriving DecidableEq, Repr

/-- View a geometry as a polygon ring (used by `MultiPolygon(...)`, which
accepts polygons only). -/
def Geom.asRing : Geom → Option (List (ℚ × ℚ))
  | .polygon ring => some ring
  | _ => none

/-- Value of the dynamic `nodes` column: a way row stores its node-id list;
a relation row stores the list of its member ways' node lists (with `none`
standing for the NaN a missing member contributed). -/
inductive NodesVal where
  | ids (l : List Nat)
  | nested (l : List (Option (List Nat)))
deriving DecidableEq, Repr

/-- Read a `nodes` cell as a plain node-id list (a way row's shape). -/
def NodesVal.asIds : NodesVal → Option (List Nat)
  | .ids l => some l
  | .nested _ => none

/-- One output-table row (a POI record).  The dynamic tag columns of the
pandas frame are kept as the row's own association list. -/
structure Row where
  osmid : Nat
  element_type : Option String
  geometry : Option Geom
  nodes : Option NodesVal
  ways : Option (List Nat)
  tags : List (String × String)
deriving DecidableEq, Repr

/-- A member entry of an OSM relation element. -/
structure Member where
  mtype : String
  ref : Nat
deriving DecidableEq, Repr

/-- One element of the Overpass JSON response.  `lat?`/`lon?` are optional
because a node element may lack those keys (dict access then raises
`KeyError`); `tags?` is `none` when the `tags` key is absent. -/
structure Element where
  type : String
  id : Nat
  lat? : Option ℚ
  lon? : Option ℚ
  nodes : List Nat
  members : List Member
  tags? : Option (List (String × String))
deriving DecidableEq, Repr

/-- Log messages, by call site, carrying the data interpolated into them. -/
inductive LogEvent where
  | invalidPolygon (nodes : List Nat)
  | invalidPoint (id : Nat)
  | invalidMultiPolygon (relId : Nat) (wayIds : List Nat)
  | couldNotParseRelation (id : Nat)
deriving DecidableEq, Repr

/-- Python-dict insertion: overwrite in place if the key exists, else append
(Python dicts keep the original position of an overwritten key). -/
def dictInsert {β : Type} (m : List (Nat × β)) (k : Nat) (v : β) : List (Nat × β) :=
  if (m.find? (fun p => p.1 = k)).isSome then
    m.map (fun p => if p.1 = k then (k, v) else p)
  else m ++ [(k, v)]

/-- Lookup in an id-keyed table (first matching label, as for a
unique-labelled pandas index). -/
def lookupRow {β : Type} (m : List (Nat × β)) (k : Nat) : Option β :=
  (m.find? (fun p => p.1 = k)).map (fun p => p.2)

/-- Sequence a fallible projection over a list, failing at the first
failure (a Python comprehension or constructor argument list whose body may
raise). -/
def collectSome {α β : Type} (f : α → Option β) : List α → Option (List β)
  | [] => some []
  | a :: t =>
      match f a with
      | none => none
      | some b =>
        match collectSome f t with
        | none => none
        | some r => some (b :: r)

/-! ### QueryBuilder: `create_poi_query` -/

/-- A Python value appearing in the tags dict: bool, str, a list of
arbitrary values, or anything else (int, None, dict, ...: `other`). -/
inductive TagVal where
  | bool (b : Bool)
  | str (s : String)
  | list (elems : List TagVal)
  | other
deriving Repr

/-- The `isinstance(s, str)` test of the list branch. -/
def TagVal.isStr : TagVal → Bool
  | .str _ => true
  | _ => false

/-- A value of `tags_dict`: the bool kept as-is, or the list of strings a
str/list value was normalized to. -/
inductive NormVal where
  | bool (b : Bool)
  | strs (l : List String)
deriving DecidableEq, Repr

/-- A value of an entry of `tags_list`: the bool, or one single string. -/
inductive PairVal where
  | wild (b : Bool)
  | val (s : String)
deriving DecidableEq, Repr

/-- Validation of one tags-dict value (`create_poi_query`, the
`isinstance` ladder): a bool is kept, a str becomes a one-element list, a
list must consist of strings only, anything else raises `TypeError`. -/
def validateVal : TagVal → Except PErr NormVal
  | .bool b => .ok (.bool b)
  | .str s => .ok (.strs [s])
  | .list l =>
      if l.all TagVal.isStr then
        .ok (.strs (l.filterMap (fun v => match v with | .str s => some s | _ => none)))
      else .error .invalidFilter
  | .other => .error .invalidFilter

/-- Whether a tags-dict value passes the `isinstance` ladder. -/
def isValidTagVal : TagVal → Bool
  | .bool _ => true
  | .str _ => true
  | .list l => l.all TagVal.isStr
  | .other => false

/-- The `tags_dict` building loop: validates values in order, raising at
the first invalid one.  The input dict is an association list in iteration
order (Python dict keys are unique). -/
def validateTags : List (String × TagVal) → Except PErr (List (String × NormVal))
  | [] => .ok []
  | (k, v) :: rest => do
      let nv ← validateVal v
      let rest' ← validateTags rest
      return (k, nv) :: rest'

/-- The `tags_list` building loop: a bool value yields one `{key: bool}`
entry, a string list yields one `{key: value}` entry per string, in order. -/
def tagsListOf : List (String × NormVal) → List (String × PairVal)
  | [] => []
  | (k, .bool b) :: rest => (k, .wild b) :: tagsListOf rest
  | (k, .strs l) :: rest => (l.map (fun s => (k, PairVal.val s))) ++ tagsListOf rest

/-- Zero-pad a natural to six digits (the fractional part of `%.6f`). -/
def pad6 (n : Nat) : String :=
  String.mk (List.replicate (6 - (toString n).length) '0') ++ toString n

/-- Round a rational to the nearest integer, ties to even, as Python's
fixed-point formatting of a float does at the last kept digit. -/
def roundHalfEven (q : ℚ) : Int :=
  let f : Int := ⌊q⌋
  if q - f < 1/2 then f
  else if 1/2 < q - f then f + 1
  else if f % 2 = 0 then f else f + 1

/-- Format a coordinate as six-decimal fixed point, modelling Python's
`'{:.6f}'.format` (on the exact rational standing in for the float). -/
def fmt6 (q : ℚ) : String :=
  let n : Int := roundHalfEven (q * 1000000)
  (if n < 0 then "-" else "") ++ toString (n.natAbs / 1000000) ++ "." ++ pad6 (n.natAbs % 1000000)

/-- The bbox literal of `create_poi_query`:
`'({s:.6f},{w:.6f},{n:.6f},{e:.6f})'` — south, west, north, east. -/
def bboxStr (north south east west : ℚ) : String :=
  "(" ++ fmt6 south ++ "," ++ fmt6 west ++ "," ++ fmt6 north ++ "," ++ fmt6 east ++ ")"

/-- The `tag_str` of one `tags_list` entry: a bool passes just the key,
otherwise `"key"="value"`. -/
def tagClause (bbox : String) : String × PairVal → String
  | (k, .wild _) => "[\"" ++ k ++ "\"]" ++ bbox ++ ";(._;>;);"
  | (k, .val v) => "[\"" ++ k ++ "\"=\"" ++ v ++ "\"]" ++ bbox ++ ";(._;>;);"

/-- The `components` list: for each `tags_list` entry, one clause per
element kind node/way/relation, in that order. -/
def componentsOf (bbox : String) (pairs : List (String × PairVal)) : List String :=
  pairs.flatMap (fun p =>
    ["node", "way", "relation"].map (fun kind => "(" ++ kind ++ tagClause bbox p ++ ");"))

/-- Modelled from the spec: `settings.default_overpass_query_settings`
(the `settings` module is not part of this repository's sources).  Per the
spec it is the API envelope with a configurable timeout and an optional
memory ceiling token. -/
def default_overpass_query_settings (timeout : Nat) (maxsize : String) : String :=
  "[out:json][timeout:" ++ toString timeout ++ "]" ++ maxsize

/-- The envelope actually used: a non-empty `custom_settings` string wins
(`if custom_settings:` — the empty string is falsy), else the default with
the timeout and the `[maxsize:...]` token (empty when `memory is None`). -/
def overpassSettingsOf (timeout : Nat) (memory : Option Nat) (custom_settings : Option String) : String :=
  let maxsize := match memory with
    | none => ""
    | some m => "[maxsize:" ++ toString m ++ "]"
  match custom_settings with
  | some cs => if cs = "" then default_overpass_query_settings timeout maxsize else cs
  | none => default_overpass_query_settings timeout maxsize

/-- `create_poi_query`: validate the tags dict, normalize it to
`tags_list`, and join the per-kind clauses inside the envelope.  A
malformed tags value surfaces as `.error .invalidFilter` (the `TypeError`). -/
def create_poi_query (north south east west : ℚ) (tags : List (String × TagVal))
    (timeout : Nat) (memory : Option Nat) (custom_settings : Option String) :
    Except PErr String := do
  let norm ← validateTags tags
  let tags_list := tagsListOf norm
  let bbox := bboxStr north south east west
  let components := String.join (componentsOf bbox tags_list)
  return overpassSettingsOf timeout memory custom_settings ++ ";(" ++ components ++ ");out;"

/-! ### Façade area check: `osm_poi_download` -/

/-- The part of a shapely polygon the download path reads: its bounds
`(west, south, east, north)`. -/
structure Poly where
  west : ℚ
  south : ℚ
  east : ℚ
  north : ℚ
deriving DecidableEq, Repr

/-- `osm_poi_download`, modelled up to the payload handed to the external
`overpass_request`: resolves the search area (polygon bounds win; else the
four coordinates must all be present, else `ValueError` /
`MissingAreaError`) and returns the query string that would be sent. -/
def osm_poi_download (tags : List (String × TagVal)) (polygon : Option Poly)
    (north south east west : Option ℚ)
    (timeout : Nat) (memory : Option Nat) (custom_settings : Option String) :
    Except PErr String :=
  match polygon with
  | some p => create_poi_query p.north p.south p.east p.west tags timeout memory custom_settings
  | none =>
    match north, south, east, west with
    | some n, some s, some e, some w => create_poi_query n s e w tags timeout memory custom_settings
    | _, _, _, _ => .error .missingArea

/-! ### NodeIndex and GeometryResolver -/

/-- `parse_nodes_coords`: one pass over the response elements, keeping
`id -> {lat, lon}` for every element of kind `node`.  The dict accesses
`result['lat']`/`result['lon']` are unguarded, so a node element missing a
coordinate key raises `KeyError` out of the whole pass. -/
def parse_nodes_coords (els : List Element) : Except PErr (List (Nat × (ℚ × ℚ))) :=
  els.foldlM
    (fun coords result =>
      if result.type = "node" then
        match result.lat?, result.lon? with
        | some la, some lo => .ok (dictInsert coords result.id (la, lo))
        | _, _ => .error .keyError
      else .ok coords)
    []

/-- The shapely `Polygon` constructor on a coordinate list: raises (here
`none`) for one or two coordinate tuples ("A LinearRing must have at least
3 coordinate tuples"); an empty list gives the empty polygon, and any other
ring is accepted, closure being implicit. -/
def mkPolygon (pts : List (ℚ × ℚ)) : Option (List (ℚ × ℚ)) :=
  if pts.length = 1 ∨ pts.length = 2 then none else some pts

/-- `parse_polygonal_poi`: for a `way` element, project every node id of
the way through the node index ((lon, lat) order) and build the polygon;
a `KeyError` on a missing node id or a constructor failure is caught,
logged with the way's node-id list, and yields no record. -/
def parse_polygonal_poi (coords : List (Nat × (ℚ × ℚ))) (response : Element) :
    Option Row × List LogEvent :=
  if response.type = "way" then
    let nodes := response.nodes
    match collectSome (fun nd => lookupRow coords nd) nodes with
    | none => (none, [.invalidPolygon nodes])
    | some cs =>
      match mkPolygon (cs.map (fun c => (c.2, c.1))) with
      | none => (none, [.invalidPolygon nodes])
      | some ring =>
        (some { osmid := response.id
                element_type := none
                geometry := some (.polygon ring)
                nodes := some (.ids nodes)
                ways := none
                tags := response.tags?.getD [] }, [])
  else (none, [])

/-- `parse_osm_node`: builds the Point from the node's own lon/lat.  When a
coordinate key is missing, the `KeyError` is caught and logged, but the
function then executes `return poi` with `poi` never assigned, raising
`UnboundLocalError` (modelled as `.error .unboundLocalPoi`). -/
def parse_osm_node (response : Element) : Except PErr Row × List LogEvent :=
  match response.lon?, response.lat? with
  | some lo, some la =>
      (.ok { osmid := response.id
             element_type := none
             geometry := some (.point lo la)
             nodes := none
             ways := none
             tags := response.tags?.getD [] }, [])
  | _, _ => (.error .unboundLocalPoi, [.invalidPoint response.id])

/-! ### Relation resolution -/

/-- The way table: a pandas frame keyed by osm id, as an ordered list of
labelled rows. -/
abbrev WayTable := List (Nat × Row)

/-- `osm_way_df.reindex(member_way_ids)`: one (possibly missing) row per
requested label, in request order; a missing label contributes NaNs
(`none`). -/
def reindex (wt : WayTable) (ids : List Nat) : List (Nat × Option Row) :=
  ids.map (fun i => (i, lookupRow wt i))

/-- The `geometry` column of a reindexed frame (NaN for missing rows). -/
def geomsOf (mw : List (Nat × Option Row)) : List (Option Geom) :=
  mw.map (fun p => p.2.bind (fun row => row.geometry))

/-- The shapely `MultiPolygon(list)` constructor: fails if any entry is NaN
(a missing row) or not a polygon; on success the multipolygon is the list of
the polygons' rings. -/
def mkMultiPolygonStrict (gs : List (Option Geom)) : Option (List (List (ℚ × ℚ))) :=
  collectSome (fun g? => g?.bind Geom.asRing) gs

/-- `relation['tags']['type']`: `none` when either key is absent (the
`KeyError` is caught by the per-relation handler). -/
def relTypeOf (r : Element) : Option String :=
  r.tags?.bind (fun ts => (ts.find? (fun p => p.1 = "type")).map (fun p => p.2))

/-- The member way ids of a relation: refs of members whose type is "way",
in membership order. -/
def memberWayIds (r : Element) : List Nat :=
  (r.members.filter (fun m => m.mtype = "way")).map (fun m => m.ref)

/-- `list(member_ways['nodes'].values)`: the `nodes` cell of each member
row in order, `none` for the NaN of a missing member (or a cell not holding
a plain id list). -/
def memberNodes (wt : WayTable) (ids : List Nat) : List (Option (List Nat)) :=
  (reindex wt ids).map (fun p => (p.2.bind (fun row => row.nodes)).bind NodesVal.asIds)

/-- `invalid_multipoly_handler`: retry after `dropna` on the geometry
column; if the remaining geometries still fail the `MultiPolygon`
constructor (a non-polygon among them), log the relation id with the full
original member-way-id list and return None. -/
def invalid_multipoly_handler (gdf : List (Nat × Option Row)) (relation : Element)
    (way_ids : List Nat) : Option (List (List (ℚ × ℚ))) × List LogEvent :=
  let cleaned := (geomsOf gdf).filterMap id
  match collectSome Geom.asRing cleaned with
  | some rings => (some rings, [])
  | none => (none, [.invalidMultiPolygon relation.id way_ids])

/-- `osm_way_df.drop(member_way_ids)`: raises `KeyError` (`none`) if any
label is absent; otherwise removes those rows. -/
def dropIds (wt : WayTable) (ids : List Nat) : Option WayTable :=
  if ids.all (fun i => (lookupRow wt i).isSome) then
    some (wt.filter (fun p => !(ids.contains p.1)))
  else none

/-- The relation row built inside `parse_osm_relations`: the relation's own
tags as columns plus geometry, ways, nodes, element_type and osmid. -/
def mkRelRow (relation : Element) (way_ids : List Nat) (mnodes : List (Option (List Nat)))
    (rings : List (List (ℚ × ℚ))) : Row :=
  { osmid := relation.id
    element_type := some "relation"
    geometry := some (.multipolygon rings)
    nodes := some (.nested mnodes)
    ways := some way_ids
    tags := relation.tags?.getD [] }

/-- The `multipoly` computation of one loop iteration: the strict
`MultiPolygon` constructor first, the invalid-geometry handler on failure
(together with the log the handler may emit). -/
def relationMultipoly (wt : WayTable) (relation : Element) (way_ids : List Nat) :
    Option (List (List (ℚ × ℚ))) × List LogEvent :=
  match mkMultiPolygonStrict (geomsOf (reindex wt way_ids)) with
  | some rings => (some rings, [])
  | none => invalid_multipoly_handler (reindex wt way_ids) relation way_ids

/-- One iteration of the `parse_osm_relations` loop over `(osm_way_df,
gdf_relations, log)` state.  The broad `except` turns a failed tag-type
lookup or a failed `drop` into a "Could not parse OSM relation" log; note
the relation row is appended to `gdf_relations` before `drop` runs, so a
`drop` failure leaves the appended row in place.  (Pandas column-absence
errors on an all-empty way table are not modelled; there the code skips the
relation with the same log and an unchanged table.) -/
def relationStep (st : WayTable × List (Nat × Row) × List LogEvent) (relation : Element) :
    WayTable × List (Nat × Row) × List LogEvent :=
  let (wt, gdf, logs) := st
  match relTypeOf relation with
  | none => (wt, gdf, logs ++ [.couldNotParseRelation relation.id])
  | some ty =>
    if ty = "multipolygon" then
      let way_ids := memberWayIds relation
      let mnodes := memberNodes wt way_ids
      let (multipoly?, hlogs) := relationMultipoly wt relation way_ids
      match multipoly? with
      | none => (wt, gdf, logs ++ hlogs)
      | some rings =>
        if rings = [] then (wt, gdf, logs ++ hlogs)
        else
          let gdf' := gdf ++ [(relation.id, mkRelRow relation way_ids mnodes rings)]
          match dropIds wt way_ids with
          | some wt' => (wt', gdf', logs ++ hlogs)
          | none => (wt, gdf', logs ++ hlogs ++ [.couldNotParseRelation relation.id])
    else (wt, gdf, logs)

/-- `parse_osm_relations`: run the loop over all relations, then append the
collected relation rows to the (mutated) way table. -/
def parse_osm_relations (relations : List Element) (osm_way_df : WayTable) :
    WayTable × List LogEvent :=
  let (wt, gdf_relations, logs) := relations.foldl relationStep (osm_way_df, [], [])
  (wt ++ gdf_relations, logs)

/-! ### RecordAssembler: `create_poi_gdf` -/

/-- One iteration of the element loop of `create_poi_gdf`: a node with a
`tags` key is parsed to a point row (a parse crash propagates), a way is
parsed to a polygon row when possible, a relation is queued for later. -/
def assembleStep (coords : List (Nat × (ℚ × ℚ)))
    (st : List (Nat × Row) × List (Nat × Row) × List Element × List LogEvent)
    (result : Element) :
    Except PErr (List (Nat × Row) × List (Nat × Row) × List Element × List LogEvent) :=
  let (poi_nodes, poi_ways, relations, logs) := st
  if result.type = "node" ∧ result.tags?.isSome then
    match parse_osm_node result with
    | (.error e, _) => .error e
    | (.ok poi, lg) =>
        .ok (dictInsert poi_nodes result.id { poi with element_type := some "node" },
             poi_ways, relations, logs ++ lg)
  else if result.type = "way" then
    match parse_polygonal_poi coords result with
    | (some poi_area, lg) =>
        .ok (poi_nodes,
             dictInsert poi_ways result.id { poi_area with element_type := some "way" },
             relations, logs ++ lg)
    | (none, lg) => .ok (poi_nodes, poi_ways, relations, logs ++ lg)
  else if result.type = "relation" then
    .ok (poi_nodes, poi_ways, relations ++ [result], logs)
  else .ok st

/-- The parsing half of `create_poi_gdf`: index the node coordinates, run
the element loop, resolve relations against the way table, and concatenate
node rows with the combined way/relation table.  (The post-hoc
centroid-within-polygon filter of the polygon path is outside the modelled
claims; this is the call shape with `polygon=None`.) -/
def create_poi_gdf_assemble (responses : List Element) :
    Except PErr (List (Nat × Row) × List LogEvent) := do
  let coords ← parse_nodes_coords responses
  let st ← responses.foldlM (assembleStep coords) ([], [], [], [])
  let (poi_nodes, poi_ways, relations, logs) := st
  let (gdf_ways, rlogs) := parse_osm_relations relations poi_ways
  return (poi_nodes ++ gdf_ways, logs ++ rlogs)

/-- `create_poi_gdf` for a bounding-box call (`polygon=None`): build and
"send" the query (the network executor is an external collaborator passed
in), then assemble the response table. -/
def create_poi_gdf (executor : String → List Element) (tags : List (String × TagVal))
    (north south east west : Option ℚ)
    (timeout : Nat) (memory : Option Nat) (custom_settings : Option String) :
    Except PErr (List (Nat × Row) × List LogEvent) := do
  let query ← osm_poi_download tags none north south east west timeout memory custom_settings
  create_poi_gdf_assemble (executor query)

/-! ### Helper lemmas -/

theorem validateVal_error_of_invalid (v : TagVal) (h : isValidTagVal v = false) :
    validateVal v = .error .invalidFilter := by
  cases v <;> simp [isValidTagVal, validateVal] at h ⊢ <;> simp [h]

theorem validateVal_ok_of_valid (v : TagVal) (h : isValidTagVal v = true) :
    ∃ nv, validateVal v = .ok nv := by
  cases v with
  | bool b => exact ⟨_, rfl⟩
  | str s => exact ⟨_, rfl⟩
  | list l =>
    exact ⟨NormVal.strs (l.filterMap fun v => match v with | TagVal.str s => some s | _ => none),
      by simp only [validateVal]; rw [if_pos (show l.all TagVal.isStr = true from h)]⟩
  | other => simp [isValidTagVal] at h

theorem validateTags_error_of_invalid (tags : List (String × TagVal))
    (h : ∃ kv ∈ tags, isValidTagVal kv.2 = false) :
    validateTags tags = .error PErr.invalidFilter := by
  induction tags with
  | nil => obtain ⟨kv, hmem, _⟩ := h; cases hmem
  | cons hd tl ih =>
    obtain ⟨k, v⟩ := hd
    obtain ⟨kv, hmem, hinv⟩ := h
    rcases List.mem_cons.1 hmem with heq | htl
    · subst heq
      simp only [validateTags, validateVal_error_of_invalid v hinv]
      rfl
    · cases hv : isValidTagVal v with
      | false =>
        simp only [validateTags, validateVal_error_of_invalid v hv]
        rfl
      | true =>
        obtain ⟨nv, hnv⟩ := validateVal_ok_of_valid v hv
        simp only [validateTags, hnv, ih ⟨kv, htl, hinv⟩]
        rfl

theorem validateTags_append (l₁ l₂ : List (String × TagVal)) :
    validateTags (l₁ ++ l₂) = do
      let r₁ ← validateTags l₁
      let r₂ ← validateTags l₂
      return r₁ ++ r₂ := by
  induction l₁ with
  | nil =>
    cases h : validateTags l₂ <;> simp [validateTags, h, Bind.bind, Except.bind, pure, Except.pure]
  | cons hd tl ih =>
    obtain ⟨k, v⟩ := hd
    cases hv : validateVal v with
    | error e => simp [validateTags, hv, Bind.bind, Except.bind]
    | ok nv =>
      cases ht : validateTags tl with
      | error e =>
        simp [validateTags, hv, ht, Bind.bind, Except.bind] at ih ⊢
        rw [ih]
      | ok r =>
        cases h2 : validateTags l₂ <;>
          simp [validateTags, hv, ht, h2, Bind.bind, Except.bind, pure, Except.pure] at ih ⊢ <;>
          simp [ih]

theorem tagsListOf_append (a b : List (String × NormVal)) :
    tagsListOf (a ++ b) = tagsListOf a ++ tagsListOf b := by
  induction a with
  | nil => simp [tagsListOf]
  | cons hd tl ih =>
    obtain ⟨k, nv⟩ := hd
    cases nv <;> simp [tagsListOf, ih]

theorem componentsOf_append (bbox : String) (a b : List (String × PairVal)) :
    componentsOf bbox (a ++ b) = componentsOf bbox a ++ componentsOf bbox b := by
  simp [componentsOf]

theorem componentsOf_length (bbox : String) (pairs : List (String × PairVal)) :
    (componentsOf bbox pairs).length = 3 * pairs.length := by
  induction pairs with
  | nil => rfl
  | cons hd tl ih =>
    have hsplit : componentsOf bbox (hd :: tl)
        = (["node", "way", "relation"].map
            (fun kind => "(" ++ kind ++ tagClause bbox hd ++ ");"))
          ++ componentsOf bbox tl := by
      simp [componentsOf]
    rw [hsplit, List.length_append, ih, List.length_map]
    simp
    ring

theorem componentsOf_mem_bbox (bbox : String) (pairs : List (String × PairVal)) (c : String)
    (hc : c ∈ componentsOf bbox pairs) : ∃ p q, c = p ++ bbox ++ q := by
  obtain ⟨pr, _, hin⟩ := List.mem_flatMap.1 hc
  obtain ⟨kind, _, rfl⟩ := List.mem_map.1 hin
  obtain ⟨k, pv⟩ := pr
  cases pv with
  | wild b =>
    refine ⟨"(" ++ kind ++ ("[\"" ++ k ++ "\"]"), ";(._;>;);" ++ ");", ?_⟩
    simp [tagClause, String.append_assoc]
  | val v =>
    refine ⟨"(" ++ kind ++ ("[\"" ++ k ++ "\"=\"" ++ v ++ "\"]"), ";(._;>;);" ++ ");", ?_⟩
    simp [tagClause, String.append_assoc]

/-! ### Claim C4: invalid tag filter values raise `InvalidFilterError` -/

/-- C4. For every tag filter containing a value that is not a boolean, not a
string, and not a list of strings (including a list with a non-string
element), `create_poi_query` raises the filter-validation error
(`TypeError`, the spec's `InvalidFilterError`), for any key and any other
arguments, and no query text is produced. -/
theorem invalid_tag_value_raises (north south east west : ℚ) (tags : List (String × TagVal))
    (timeout : Nat) (memory : Option Nat) (custom_settings : Option String)
    (h : ∃ kv ∈ tags, isValidTagVal kv.2 = false) :
    create_poi_query north south east west tags timeout memory custom_settings
      = .error .invalidFilter := by
  simp only [create_poi_query, validateTags_error_of_invalid tags h]
  rfl

/-- Witness for C4 at a concrete input: a list value with a non-string
element. -/
theorem invalid_tag_value_raises_witness :
    (∃ kv ∈ [("amenity", TagVal.list [TagVal.str "cafe", TagVal.bool true])],
        isValidTagVal kv.2 = false)
    ∧ create_poi_query 1 0 1 0 [("amenity", TagVal.list [TagVal.str "cafe", TagVal.bool true])]
        180 none none = .error .invalidFilter :=
  ⟨⟨_, List.mem_singleton.2 rfl, rfl⟩,
   invalid_tag_value_raises 1 0 1 0 _ 180 none none ⟨_, List.mem_singleton.2 rfl, rfl⟩⟩

/-! ### Claim C6: clause count and shared bbox literal -/

/-- C6. For every valid tag filter (one that validates to `norm`),
`create_poi_query` emits exactly 3 times the number of normalized
(key, value-or-wildcard) pairs of element-kind clauses — one each for node,
way, relation per pair — every clause contains the same bounding-box
literal `bboxStr` (six-decimal fixed point, in the order
south,west,north,east), and the produced query is the envelope wrapping
exactly the join of those clauses. -/
theorem build_query_clause_count_bbox (north south east west : ℚ)
    (tags : List (String × TagVal)) (norm : List (String × NormVal))
    (timeout : Nat) (memory : Option Nat) (custom_settings : Option String)
    (h : validateTags tags = .ok norm) :
    (componentsOf (bboxStr north south east west) (tagsListOf norm)).length
        = 3 * (tagsListOf norm).length
    ∧ (∀ c ∈ componentsOf (bboxStr north south east west) (tagsListOf norm),
        ∃ p q, c = p ++ bboxStr north south east west ++ q)
    ∧ create_poi_query north south east west tags timeout memory custom_settings
        = .ok (overpassSettingsOf timeout memory custom_settings ++ ";(" ++
            String.join (componentsOf (bboxStr north south east west) (tagsListOf norm))
            ++ ");out;") := by
  refine ⟨componentsOf_length _ _, fun c hc => componentsOf_mem_bbox _ _ c hc, ?_⟩
  simp only [create_poi_query, h]
  rfl

/-- Witness for C6 at a concrete filter with a wildcard and a two-element
list (3 normalized pairs, 9 clauses). -/
theorem build_query_clause_count_bbox_witness :
    validateTags [("amenity", TagVal.bool true),
        ("landuse", TagVal.list [TagVal.str "retail", TagVal.str "commercial"])]
      = .ok [("amenity", NormVal.bool true), ("landuse", NormVal.strs ["retail", "commercial"])]
    ∧ ((componentsOf (bboxStr 1 0 1 0)
          (tagsListOf [("amenity", NormVal.bool true),
            ("landuse", NormVal.strs ["retail", "commercial"])])).length
        = 3 * (tagsListOf [("amenity", NormVal.bool true),
            ("landuse", NormVal.strs ["retail", "commercial"])]).length
      ∧ (∀ c ∈ componentsOf (bboxStr 1 0 1 0)
            (tagsListOf [("amenity", NormVal.bool true),
              ("landuse", NormVal.strs ["retail", "commercial"])]),
          ∃ p q, c = p ++ bboxStr 1 0 1 0 ++ q)
      ∧ create_poi_query 1 0 1 0 [("amenity", TagVal.bool true),
            ("landuse", TagVal.list [TagVal.str "retail", TagVal.str "commercial"])] 180 none none
          = .ok (overpassSettingsOf 180 none none ++ ";(" ++
              String.join (componentsOf (bboxStr 1 0 1 0)
                (tagsListOf [("amenity", NormVal.bool true),
                  ("landuse", NormVal.strs ["retail", "commercial"])])) ++ ");out;")) :=
  ⟨rfl, build_query_clause_count_bbox 1 0 1 0 _ _ 180 none none rfl⟩

/-! ### Claim C10: boolean False normalizes to the same wildcard as True -/

/-- C10. For every tag filter key, the boolean value `False` passes filter
validation exactly as `True` does, and `create_poi_query` produces output
identical to the output for the same filter with `True` at that key: the
clause emitted for a boolean value does not depend on the boolean. -/
theorem create_poi_query_of_ok (north south east west : ℚ) (tags : List (String × TagVal))
    (norm : List (String × NormVal)) (timeout : Nat) (memory : Option Nat)
    (custom_settings : Option String) (h : validateTags tags = .ok norm) :
    create_poi_query north south east west tags timeout memory custom_settings
      = .ok (overpassSettingsOf timeout memory custom_settings ++ ";(" ++
          String.join (componentsOf (bboxStr north south east west) (tagsListOf norm))
          ++ ");out;") := by
  simp only [create_poi_query, h]
  rfl

theorem create_poi_query_of_error (north south east west : ℚ) (tags : List (String × TagVal))
    (e : PErr) (timeout : Nat) (memory : Option Nat)
    (custom_settings : Option String) (h : validateTags tags = .error e) :
    create_poi_query north south east west tags timeout memory custom_settings = .error e := by
  simp only [create_poi_query, h]
  rfl

theorem validateTags_append_ok (l₁ l₂ : List (String × TagVal))
    (r₁ r₂ : List (String × NormVal))
    (h₁ : validateTags l₁ = .ok r₁) (h₂ : validateTags l₂ = .ok r₂) :
    validateTags (l₁ ++ l₂) = .ok (r₁ ++ r₂) := by
  rw [validateTags_append, h₁, h₂]
  rfl

theorem validateTags_append_error_left (l₁ l₂ : List (String × TagVal)) (e : PErr)
    (h₁ : validateTags l₁ = .error e) :
    validateTags (l₁ ++ l₂) = .error e := by
  rw [validateTags_append, h₁]
  rfl

theorem validateTags_append_error_right (l₁ l₂ : List (String × TagVal))
    (r₁ : List (String × NormVal)) (e : PErr)
    (h₁ : validateTags l₁ = .ok r₁) (h₂ : validateTags l₂ = .error e) :
    validateTags (l₁ ++ l₂) = .error e := by
  rw [validateTags_append, h₁, h₂]
  rfl

theorem validateTags_cons_bool (k : String) (b : Bool) (post : List (String × TagVal)) :
    validateTags ((k, TagVal.bool b) :: post)
      = (validateTags post).map (fun r => (k, NormVal.bool b) :: r) := by
  cases hpost : validateTags post <;> simp only [validateTags, validateVal, hpost] <;> rfl

/-! ### Claim C10: boolean False normalizes to the same wildcard as True -/

/-- C10. For every tag filter key, the boolean value `False` passes filter
validation exactly as `True` does, and `create_poi_query` produces output
identical to the output for the same filter with `True` at that key: the
clause emitted for a boolean value does not depend on the boolean. -/
theorem bool_false_wildcard_eq (north south east west : ℚ)
    (pre post : List (String × TagVal)) (k : String)
    (timeout : Nat) (memory : Option Nat) (custom_settings : Option String) :
    create_poi_query north south east west (pre ++ (k, TagVal.bool false) :: post)
        timeout memory custom_settings
      = create_poi_query north south east west (pre ++ (k, TagVal.bool true) :: post)
        timeout memory custom_settings := by
  cases hpre : validateTags pre with
  | error e =>
    rw [create_poi_query_of_error _ _ _ _ _ _ _ _ _ (validateTags_append_error_left _ _ _ hpre),
        create_poi_query_of_error _ _ _ _ _ _ _ _ _ (validateTags_append_error_left _ _ _ hpre)]
  | ok r₁ =>
    cases hpost : validateTags post with
    | error e =>
      have hc : ∀ b : Bool, validateTags ((k, TagVal.bool b) :: post) = .error e := by
        intro b
        rw [validateTags_cons_bool, hpost]
        rfl
      rw [create_poi_query_of_error _ _ _ _ _ _ _ _ _
            (validateTags_append_error_right _ _ _ _ hpre (hc false)),
          create_poi_query_of_error _ _ _ _ _ _ _ _ _
            (validateTags_append_error_right _ _ _ _ hpre (hc true))]
    | ok r₂ =>
      have hc : ∀ b : Bool,
          validateTags ((k, TagVal.bool b) :: post) = .ok ((k, NormVal.bool b) :: r₂) := by
        intro b
        rw [validateTags_cons_bool, hpost]
        rfl
      rw [create_poi_query_of_ok _ _ _ _ _ _ _ _ _
            (validateTags_append_ok _ _ _ _ hpre (hc false)),
          create_poi_query_of_ok _ _ _ _ _ _ _ _ _
            (validateTags_append_ok _ _ _ _ hpre (hc true))]
      have htl : ∀ b : Bool,
          tagsListOf (r₁ ++ (k, NormVal.bool b) :: r₂)
            = tagsListOf r₁ ++ tagsListOf ((k, NormVal.bool b) :: r₂) :=
        fun b => tagsListOf_append r₁ ((k, NormVal.bool b) :: r₂)
      rw [htl false, htl true, componentsOf_append, componentsOf_append]
      rfl

/-! ### Claim C8: missing area fails before any query is built -/

/-- C8. For every call with no polygon and at least one of
north/south/east/west unset, both the core download and the gdf
construction that the façade entry points reduce to fail with the
missing-area error (`ValueError`, the spec's `MissingAreaError`) — for any
executor and any tags, i.e. before any query is built or sent. -/
theorem missing_area_error (executor : String → List Element)
    (tags : List (String × TagVal)) (north south east west : Option ℚ)
    (timeout : Nat) (memory : Option Nat) (custom_settings : Option String)
    (h : north = none ∨ south = none ∨ east = none ∨ west = none) :
    osm_poi_download tags none north south east west timeout memory custom_settings
        = .error .missingArea
    ∧ create_poi_gdf executor tags north south east west timeout memory custom_settings
        = .error .missingArea := by
  have hd : osm_poi_download tags none north south east west timeout memory custom_settings
      = .error .missingArea := by
    cases north <;> cases south <;> cases east <;> cases west <;>
      first
        | rfl
        | (rcases h with h | h | h | h <;> simp at h)
  refine ⟨hd, ?_⟩
  simp only [create_poi_gdf, hd]
  rfl

/-- Witness for C8: south missing, concrete everything else. -/
theorem missing_area_error_witness :
    ((some (1 : ℚ) : Option ℚ) = none ∨ (none : Option ℚ) = none
      ∨ (some (1 : ℚ) : Option ℚ) = none ∨ (some (0 : ℚ) : Option ℚ) = none)
    ∧ osm_poi_download [("amenity", TagVal.bool true)] none (some 1) none (some 1) (some 0)
        180 none none = .error .missingArea
    ∧ create_poi_gdf (fun _ => []) [("amenity", TagVal.bool true)] (some 1) none (some 1) (some 0)
        180 none none = .error .missingArea :=
  ⟨Or.inr (Or.inl rfl),
   missing_area_error (fun _ => []) [("amenity", TagVal.bool true)] (some 1) none (some 1) (some 0)
     180 none none (Or.inr (Or.inl rfl))⟩

/-! ### Claim C5: parse_osm_node on a node missing lat or lon -/

/-- C5. For every node element lacking the `lat` key or the `lon` key,
`parse_osm_node` yields no record — but, contrary to the claim, it raises:
the `KeyError` is caught and logged, after which the function executes
`return poi` with `poi` never assigned, so an `UnboundLocalError`
propagates out of the call (and would crash `create_poi_gdf`). -/
theorem parse_osm_node_missing_coord_raises (response : Element)
    (h : response.lat? = none ∨ response.lon? = none) :
    parse_osm_node response
      = (.error .unboundLocalPoi, [.invalidPoint response.id]) := by
  rcases h with h | h <;>
    cases hlo : response.lon? <;> cases hla : response.lat? <;>
    simp only [parse_osm_node, hlo, hla] <;> simp_all

/-- A node element carrying `lon` and tags but no `lat` key. -/
def nodeNoLat : Element :=
  { type := "node", id := 1, lat? := none, lon? := some (9/2), nodes := [],
    members := [], tags? := some [("amenity", "cafe")] }

/-- Witness for C5 at `nodeNoLat`. -/
theorem parse_osm_node_missing_coord_raises_witness :
    (nodeNoLat.lat? = none ∨ nodeNoLat.lon? = none)
    ∧ parse_osm_node nodeNoLat = (.error .unboundLocalPoi, [.invalidPoint 1]) :=
  ⟨Or.inl rfl, parse_osm_node_missing_coord_raises nodeNoLat (Or.inl rfl)⟩

/-! ### Claim C7: way with a node id absent from the node index -/

theorem collectSome_eq_none_of_mem {α β : Type} (f : α → Option β) (l : List α)
    (h : ∃ x ∈ l, f x = none) : collectSome f l = none := by
  induction l with
  | nil => obtain ⟨x, hx, _⟩ := h; cases hx
  | cons a t ih =>
    obtain ⟨x, hx, hfx⟩ := h
    rcases List.mem_cons.1 hx with rfl | hxt
    · simp [collectSome, hfx]
    · cases hfa : f a
      · simp [collectSome, hfa]
      · simp [collectSome, hfa, ih ⟨x, hxt, hfx⟩]

/-- C7. For every way element whose node-id list references at least one id
absent from the node index, `parse_polygonal_poi` returns no record and
logs the way's node-id list (the `KeyError` is caught inside the function,
so the overall parse is not aborted). -/
theorem way_missing_node_yields_none (coords : List (Nat × (ℚ × ℚ))) (response : Element)
    (hty : response.type = "way")
    (h : ∃ nd ∈ response.nodes, lookupRow coords nd = none) :
    parse_polygonal_poi coords response
      = (none, [.invalidPolygon response.nodes]) := by
  simp only [parse_polygonal_poi, hty, if_pos]
  rw [collectSome_eq_none_of_mem _ _ h]

/-- A way element referencing node 99, and an index holding only node 1. -/
def wayBadRef : Element :=
  { type := "way", id := 7, lat? := none, lon? := none, nodes := [1, 99],
    members := [], tags? := none }

/-- Witness for C7 at `wayBadRef` over a one-node index. -/
theorem way_missing_node_yields_none_witness :
    wayBadRef.type = "way"
    ∧ (∃ nd ∈ wayBadRef.nodes, lookupRow [(1, ((0 : ℚ), (0 : ℚ)))] nd = none)
    ∧ parse_polygonal_poi [(1, ((0 : ℚ), (0 : ℚ)))] wayBadRef
      = (none, [.invalidPolygon [1, 99]]) :=
  ⟨rfl, ⟨99, by simp [wayBadRef, lookupRow], rfl⟩,
   way_missing_node_yields_none _ _ rfl ⟨99, by simp [wayBadRef, lookupRow], rfl⟩⟩

/-! ### Relation-resolution lemmas -/

/-- Whether a labelled row is the relation row for relation id `rid`. -/
def isRelRowFor (rid : Nat) (p : Nat × Row) : Bool :=
  decide (p.2.element_type = some "relation" ∧ p.2.osmid = rid)

/-- The rings of the member ways of `ids` that are present in `wt` with a
polygon geometry, in membership order (what the retry of
`invalid_multipoly_handler` builds the MultiPolygon from). -/
def presentRings (wt : WayTable) (ids : List Nat) : List (List (ℚ × ℚ)) :=
  ids.filterMap (fun i => ((lookupRow wt i).bind (fun row => row.geometry)).bind Geom.asRing)

theorem parse_osm_relations_singleton (r : Element) (wt : WayTable) :
    parse_osm_relations [r] wt
      = ((relationStep (wt, [], []) r).1 ++ (relationStep (wt, [], []) r).2.1,
         (relationStep (wt, [], []) r).2.2) := rfl

theorem geomsOf_reindex (wt : WayTable) (ids : List Nat) :
    geomsOf (reindex wt ids)
      = ids.map (fun i => (lookupRow wt i).bind (fun row => row.geometry)) := by
  simp [geomsOf, reindex, List.map_map, Function.comp]

theorem relationStep_no_type (wt : WayTable) (gdf : List (Nat × Row)) (logs : List LogEvent)
    (r : Element) (h : relTypeOf r = none) :
    relationStep (wt, gdf, logs) r = (wt, gdf, logs ++ [.couldNotParseRelation r.id]) := by
  simp [relationStep, h]

theorem relationStep_not_multipolygon (wt : WayTable) (gdf : List (Nat × Row))
    (logs : List LogEvent) (r : Element) (ty : String)
    (h : relTypeOf r = some ty) (hne : ty ≠ "multipolygon") :
    relationStep (wt, gdf, logs) r = (wt, gdf, logs) := by
  simp [relationStep, h, hne]

theorem relationStep_mp_fail (wt : WayTable) (gdf : List (Nat × Row)) (logs : List LogEvent)
    (r : Element) (hlogs : List LogEvent)
    (h : relTypeOf r = some "multipolygon")
    (hm : relationMultipoly wt r (memberWayIds r) = (none, hlogs)) :
    relationStep (wt, gdf, logs) r = (wt, gdf, logs ++ hlogs) := by
  simp [relationStep, h, hm]

theorem relationStep_mp_empty (wt : WayTable) (gdf : List (Nat × Row)) (logs : List LogEvent)
    (r : Element) (hlogs : List LogEvent)
    (h : relTypeOf r = some "multipolygon")
    (hm : relationMultipoly wt r (memberWayIds r) = (some [], hlogs)) :
    relationStep (wt, gdf, logs) r = (wt, gdf, logs ++ hlogs) := by
  simp [relationStep, h, hm]

theorem relationStep_mp_drop_ok (wt wt' : WayTable) (gdf : List (Nat × Row))
    (logs : List LogEvent) (r : Element) (rings : List (List (ℚ × ℚ))) (hlogs : List LogEvent)
    (h : relTypeOf r = some "multipolygon")
    (hm : relationMultipoly wt r (memberWayIds r) = (some rings, hlogs))
    (hne : rings ≠ [])
    (hdrop : dropIds wt (memberWayIds r) = some wt') :
    relationStep (wt, gdf, logs) r
      = (wt', gdf ++ [(r.id, mkRelRow r (memberWayIds r) (memberNodes wt (memberWayIds r)) rings)],
         logs ++ hlogs) := by
  simp [relationStep, h, hm, hne, hdrop]

theorem relationStep_mp_drop_fail (wt : WayTable) (gdf : List (Nat × Row))
    (logs : List LogEvent) (r : Element) (rings : List (List (ℚ × ℚ))) (hlogs : List LogEvent)
    (h : relTypeOf r = some "multipolygon")
    (hm : relationMultipoly wt r (memberWayIds r) = (some rings, hlogs))
    (hne : rings ≠ [])
    (hdrop : dropIds wt (memberWayIds r) = none) :
    relationStep (wt, gdf, logs) r
      = (wt, gdf ++ [(r.id, mkRelRow r (memberWayIds r) (memberNodes wt (memberWayIds r)) rings)],
         logs ++ hlogs ++ [.couldNotParseRelation r.id]) := by
  simp [relationStep, h, hm, hne, hdrop]

theorem relationMultipoly_logs (wt : WayTable) (r : Element) (ids : List Nat) :
    (relationMultipoly wt r ids).2 = []
      ∨ (relationMultipoly wt r ids).2 = [.invalidMultiPolygon r.id ids] := by
  unfold relationMultipoly invalid_multipoly_handler
  cases hs : mkMultiPolygonStrict (geomsOf (reindex wt ids)) with
  | some rings => simp
  | none =>
    cases hc : collectSome Geom.asRing ((geomsOf (reindex wt ids)).filterMap id) with
    | none => simp [hc]
    | some rings => simp [hc]

theorem collectSome_map_polygon (rings : List (List (ℚ × ℚ))) :
    collectSome (fun g? => g?.bind Geom.asRing)
        (rings.map (fun g => some (Geom.polygon g))) = some rings := by
  induction rings with
  | nil => rfl
  | cons a t ih =>
    have hb : (some (Geom.polygon a)).bind Geom.asRing = some a := rfl
    simp only [List.map_cons, collectSome, hb, ih]

theorem lookup_isSome_of_geom_map (wt : WayTable) (ids : List Nat)
    (rings : List (List (ℚ × ℚ)))
    (h : ids.map (fun i => (lookupRow wt i).bind (fun row => row.geometry))
        = rings.map (fun g => some (Geom.polygon g))) :
    ids.all (fun i => (lookupRow wt i).isSome) = true := by
  induction ids generalizing rings with
  | nil => rfl
  | cons a t ih =>
    cases rings with
    | nil => simp at h
    | cons r rs =>
      simp only [List.map_cons, List.cons.injEq] at h
      obtain ⟨hhd, htl⟩ := h
      have ha : (lookupRow wt a).isSome = true := by
        cases hla : lookupRow wt a with
        | none => rw [hla] at hhd; simp at hhd
        | some _ => rfl
      simp [List.all_cons, ha, ih rs htl]

theorem dropIds_some_of_all (wt : WayTable) (ids : List Nat)
    (h : ids.all (fun i => (lookupRow wt i).isSome) = true) :
    dropIds wt ids = some (wt.filter (fun p => !(ids.contains p.1))) := by
  unfold dropIds
  rw [if_pos h]

theorem dropIds_none_of_absent (wt : WayTable) (ids : List Nat)
    (h : ∃ i ∈ ids, lookupRow wt i = none) :
    dropIds wt ids = none := by
  unfold dropIds
  rw [if_neg]
  intro hall
  obtain ⟨i, hi, hni⟩ := h
  have := (List.all_eq_true.1 hall) i hi
  rw [hni] at this
  simp at this

theorem lookup_filter_not_mem (wt : WayTable) (ids : List Nat) (i : Nat) (hi : i ∈ ids) :
    lookupRow (wt.filter (fun p => !(ids.contains p.1))) i = none := by
  unfold lookupRow
  cases hf : (wt.filter (fun p => !(ids.contains p.1))).find? (fun p => p.1 = i) with
  | none => rfl
  | some p =>
    exfalso
    have hpi : p.1 = i := by simpa using List.find?_some hf
    have hmem := List.mem_of_find?_eq_some hf
    have hcond := (List.mem_filter.1 hmem).2
    rw [hpi] at hcond
    have hct : ids.contains i = true := List.contains_iff_exists_mem_beq.2 ⟨i, hi, by simp⟩
    rw [hct] at hcond
    simp at hcond

theorem collectSome_asRing_filterMap (ids : List Nat) (F : Nat → Option Geom)
    (h : ∀ i ∈ ids, ∀ g, F i = some g → ∃ ring, g = Geom.polygon ring) :
    collectSome Geom.asRing (ids.filterMap F)
      = some (ids.filterMap (fun i => (F i).bind Geom.asRing)) := by
  induction ids with
  | nil => rfl
  | cons a t ih =>
    have hih := ih (fun i hi g hg => h i (List.mem_cons_of_mem a hi) g hg)
    cases hFa : F a with
    | none => simpa [List.filterMap_cons, hFa] using hih
    | some g =>
      obtain ⟨ring, rfl⟩ := h a (List.mem_cons_self a t) g hFa
      simp [List.filterMap_cons, hFa, collectSome, Geom.asRing, hih]

/-! ### Claim C1: full absorption of a multipolygon relation -/

/-- A standalone way row, as `create_poi_gdf` builds it. -/
def wayRowA : Row :=
  { osmid := 1, element_type := some "way",
    geometry := some (.polygon [(0, 0), (1, 0), (0, 1)]),
    nodes := some (.ids [1, 2, 3]), ways := none, tags := [] }

/-- A way table holding the single way 1. -/
def wtA : WayTable := [(1, wayRowA)]

/-- A multipolygon relation with a node member but no way members. -/
def relNoWays : Element :=
  { type := "relation", id := 12, lat? := none, lon? := none, nodes := [],
    members := [⟨"node", 5⟩], tags? := some [("type", "multipolygon")] }

/-- Counterexample to C1 as stated: `relNoWays` is a multipolygon relation
all of whose member ways (there are none) are present with valid geometry,
yet relation resolution emits no row for it — `MultiPolygon([])` is empty,
hence falsy, and the relation is skipped. -/
theorem relation_no_members_yields_no_row :
    relTypeOf relNoWays = some "multipolygon"
    ∧ memberWayIds relNoWays = []
    ∧ parse_osm_relations [relNoWays] wtA = (wtA, [])
    ∧ wtA.countP (isRelRowFor relNoWays.id) = 0 := by
  refine ⟨rfl, rfl, rfl, rfl⟩

/-- C1 (amended: the relation must have at least one member way).  A
multipolygon relation with a nonempty member-way list, all of whose member
ways are present in the way table with polygon geometry (`rings` in order),
is absorbed: the returned table is the way table minus the member ways plus
exactly one relation row carrying element-kind "relation", osm-id = the
relation id and the MultiPolygon of the member rings, and no member way id
remains as a standalone row. -/
theorem relation_all_members_absorbed (r : Element) (wt : WayTable)
    (rings : List (List (ℚ × ℚ)))
    (h1 : relTypeOf r = some "multipolygon")
    (h2 : memberWayIds r ≠ [])
    (h3 : (memberWayIds r).map (fun i => (lookupRow wt i).bind (fun row => row.geometry))
        = rings.map (fun g => some (Geom.polygon g)))
    (h4 : ∀ p ∈ wt, isRelRowFor r.id p = false) :
    parse_osm_relations [r] wt
      = (wt.filter (fun p => !((memberWayIds r).contains p.1))
          ++ [(r.id, mkRelRow r (memberWayIds r) (memberNodes wt (memberWayIds r)) rings)], [])
    ∧ (parse_osm_relations [r] wt).1.countP (isRelRowFor r.id) = 1
    ∧ ∀ i ∈ memberWayIds r,
        lookupRow (wt.filter (fun p => !((memberWayIds r).contains p.1))) i = none := by
  have hstrict : mkMultiPolygonStrict (geomsOf (reindex wt (memberWayIds r))) = some rings := by
    rw [mkMultiPolygonStrict, geomsOf_reindex, h3, collectSome_map_polygon]
  have hm : relationMultipoly wt r (memberWayIds r) = (some rings, []) := by
    simp [relationMultipoly, hstrict]
  have hne : rings ≠ [] := by
    intro hr
    subst hr
    simp only [List.map_nil, List.map_eq_nil_iff] at h3
    exact h2 h3
  have hdrop := dropIds_some_of_all wt (memberWayIds r)
    (lookup_isSome_of_geom_map wt (memberWayIds r) rings h3)
  have heq : parse_osm_relations [r] wt
      = (wt.filter (fun p => !((memberWayIds r).contains p.1))
          ++ [(r.id, mkRelRow r (memberWayIds r) (memberNodes wt (memberWayIds r)) rings)], []) := by
    rw [parse_osm_relations_singleton,
        relationStep_mp_drop_ok wt _ [] [] r rings [] h1 hm hne hdrop]
    simp
  refine ⟨heq, ?_, fun i hi => lookup_filter_not_mem wt (memberWayIds r) i hi⟩
  rw [heq]
  simp only [List.countP_append]
  have hz : (wt.filter (fun p => !((memberWayIds r).contains p.1))).countP (isRelRowFor r.id)
      = 0 :=
    List.countP_eq_zero.2 (fun p hp => by
      rw [h4 p (List.mem_filter.1 hp).1]
      simp)
  rw [hz]
  simp [isRelRowFor, mkRelRow]

/-- A multipolygon relation whose sole way member is way 1 of `wtA`. -/
def relOneWay : Element :=
  { type := "relation", id := 20, lat? := none, lon? := none, nodes := [],
    members := [⟨"way", 1⟩], tags? := some [("type", "multipolygon"), ("building", "yes")] }

/-- Witness for C1 (amended) at `relOneWay` over `wtA`. -/
theorem relation_all_members_absorbed_witness :
    (relTypeOf relOneWay = some "multipolygon"
      ∧ memberWayIds relOneWay ≠ []
      ∧ (memberWayIds relOneWay).map
          (fun i => (lookupRow wtA i).bind (fun row => row.geometry))
        = [[((0 : ℚ), (0 : ℚ)), (1, 0), (0, 1)]].map (fun g => some (Geom.polygon g))
      ∧ ∀ p ∈ wtA, isRelRowFor relOneWay.id p = false)
    ∧ (parse_osm_relations [relOneWay] wtA
        = (wtA.filter (fun p => !((memberWayIds relOneWay).contains p.1))
            ++ [(relOneWay.id, mkRelRow relOneWay (memberWayIds relOneWay)
                  (memberNodes wtA (memberWayIds relOneWay))
                  [[((0 : ℚ), (0 : ℚ)), (1, 0), (0, 1)]])], [])
      ∧ (parse_osm_relations [relOneWay] wtA).1.countP (isRelRowFor relOneWay.id) = 1
      ∧ ∀ i ∈ memberWayIds relOneWay,
          lookupRow (wtA.filter (fun p => !((memberWayIds relOneWay).contains p.1))) i
            = none) :=
  ⟨⟨rfl, by decide, rfl, by decide⟩,
   relation_all_members_absorbed relOneWay wtA [[(0, 0), (1, 0), (0, 1)]]
     rfl (by decide) rfl (by decide)⟩

/-! ### Claim C2: what a failed relation leaves behind -/

/-- A multipolygon relation whose members are way 1 (present in `wtA`) and
way 99 (absent). -/
def relBadDrop : Element :=
  { type := "relation", id := 11, lat? := none, lon? := none, nodes := [],
    members := [⟨"way", 1⟩, ⟨"way", 99⟩], tags? := some [("type", "multipolygon")] }

/-- Counterexample to C2 as stated: processing `relBadDrop` raises while
removing member ways (`drop` hits the absent way 99, hence the "Could not
parse" log), yet the relation's row had already been appended and remains
in the output — the relation does contribute a row. -/
theorem failed_drop_keeps_appended_row :
    (parse_osm_relations [relBadDrop] wtA).2 = [.couldNotParseRelation 11]
    ∧ (parse_osm_relations [relBadDrop] wtA).1
      = wtA ++ [(11, mkRelRow relBadDrop [1, 99] [some [1, 2, 3], none]
          [[(0, 0), (1, 0), (0, 1)]])] :=
  ⟨rfl, rfl⟩

/-- C2 (amended).  For every relation whose processing raises (it is
reported with a "Could not parse OSM relation" log), the way table is left
unchanged with respect to that relation; the relation contributes no output
row when the raise happens before its row is appended (e.g. a failed
tag-type lookup), but a failure while removing member ways happens after
the append, so in that case the already-appended relation row remains in
the output. -/
theorem failed_relation_leaves_table_unchanged (r : Element) (wt : WayTable)
    (h : LogEvent.couldNotParseRelation r.id ∈ (parse_osm_relations [r] wt).2) :
    (parse_osm_relations [r] wt).1 = wt
    ∨ ∃ rings, (parse_osm_relations [r] wt).1
        = wt ++ [(r.id, mkRelRow r (memberWayIds r) (memberNodes wt (memberWayIds r)) rings)] := by
  rw [parse_osm_relations_singleton] at h ⊢
  cases hty : relTypeOf r with
  | none =>
    rw [relationStep_no_type wt [] [] r hty]
    left
    simp
  | some ty =>
    by_cases hmp : ty = "multipolygon"
    · subst hmp
      rcases hm : relationMultipoly wt r (memberWayIds r) with ⟨mp?, hlogs⟩
      have hl := relationMultipoly_logs wt r (memberWayIds r)
      rw [hm] at hl
      cases mp? with
      | none =>
        rw [relationStep_mp_fail wt [] [] r hlogs hty hm] at h
        rcases hl with rfl | rfl <;> simp at h
      | some rings =>
        by_cases hr : rings = []
        · subst hr
          rw [relationStep_mp_empty wt [] [] r hlogs hty hm] at h
          rcases hl with rfl | rfl <;> simp at h
        · cases hdrop : dropIds wt (memberWayIds r) with
          | some wt' =>
            rw [relationStep_mp_drop_ok wt wt' [] [] r rings hlogs hty hm hr hdrop] at h
            rcases hl with rfl | rfl <;> simp at h
          | none =>
            rw [relationStep_mp_drop_fail wt [] [] r rings hlogs hty hm hr hdrop]
            right
            exact ⟨rings, by simp⟩
    · rw [relationStep_not_multipolygon wt [] [] r ty hty hmp] at h
      simp at h

/-- Witness for C2 (amended) at `relBadDrop` over `wtA`: the raise happens
at `drop`, the table part is unchanged and the appended row remains. -/
theorem failed_relation_leaves_table_unchanged_witness :
    LogEvent.couldNotParseRelation relBadDrop.id ∈ (parse_osm_relations [relBadDrop] wtA).2
    ∧ ((parse_osm_relations [relBadDrop] wtA).1 = wtA
      ∨ ∃ rings, (parse_osm_relations [relBadDrop] wtA).1
          = wtA ++ [(relBadDrop.id, mkRelRow relBadDrop (memberWayIds relBadDrop)
              (memberNodes wtA (memberWayIds relBadDrop)) rings)]) :=
  ⟨by decide, failed_relation_leaves_table_unchanged relBadDrop wtA (by decide)⟩

/-! ### Claim C3: degraded-but-present behavior on missing members -/

/-- C3. For every multipolygon relation referencing at least one member way
absent from the way table (every present member being a polygon way row):
when the retry after dropping the absent geometries yields a nonempty ring
list, the relation still produces exactly one areal record, built from the
geometries of the remaining valid members (appended after the unchanged
way table — the `drop` failure leaves the member ways in place); when no
member is resolvable the relation produces zero records. -/
theorem relation_missing_member_degraded (r : Element) (wt : WayTable)
    (h1 : relTypeOf r = some "multipolygon")
    (h2 : ∃ i ∈ memberWayIds r, lookupRow wt i = none)
    (h3 : ∀ i ∈ memberWayIds r, ∀ row, lookupRow wt i = some row →
        ∃ g, row.geometry = some (Geom.polygon g)) :
    (presentRings wt (memberWayIds r) ≠ [] →
      (parse_osm_relations [r] wt).1
        = wt ++ [(r.id, mkRelRow r (memberWayIds r) (memberNodes wt (memberWayIds r))
            (presentRings wt (memberWayIds r)))])
    ∧ (presentRings wt (memberWayIds r) = [] → (parse_osm_relations [r] wt).1 = wt) := by
  have hstrict : mkMultiPolygonStrict (geomsOf (reindex wt (memberWayIds r))) = none := by
    rw [mkMultiPolygonStrict, geomsOf_reindex]
    apply collectSome_eq_none_of_mem
    obtain ⟨i, hi, hni⟩ := h2
    exact ⟨(lookupRow wt i).bind (fun row => row.geometry),
      List.mem_map_of_mem _ hi, by rw [hni]; rfl⟩
  have hF : ∀ i ∈ memberWayIds r, ∀ g,
      (lookupRow wt i).bind (fun row => row.geometry) = some g →
      ∃ ring, g = Geom.polygon ring := by
    intro i hi g hg
    cases hl : lookupRow wt i with
    | none => rw [hl] at hg; simp at hg
    | some row =>
      rw [hl] at hg
      replace hg : row.geometry = some g := hg
      obtain ⟨g', hg'⟩ := h3 i hi row hl
      rw [hg'] at hg
      exact ⟨g', by injection hg with hh; exact hh.symm⟩
  have hclean : (geomsOf (reindex wt (memberWayIds r))).filterMap id
      = (memberWayIds r).filterMap
          (fun i => (lookupRow wt i).bind (fun row => row.geometry)) := by
    rw [geomsOf_reindex, List.filterMap_map]
    rfl
  have hhandler : invalid_multipoly_handler (reindex wt (memberWayIds r)) r (memberWayIds r)
      = (some (presentRings wt (memberWayIds r)), []) := by
    simp only [invalid_multipoly_handler, hclean, collectSome_asRing_filterMap _ _ hF,
      presentRings]
  have hm : relationMultipoly wt r (memberWayIds r)
      = (some (presentRings wt (memberWayIds r)), []) := by
    simp [relationMultipoly, hstrict, hhandler]
  have hdrop : dropIds wt (memberWayIds r) = none := dropIds_none_of_absent wt _ h2
  constructor
  · intro hne
    rw [parse_osm_relations_singleton,
        relationStep_mp_drop_fail wt [] [] r (presentRings wt (memberWayIds r)) []
          h1 hm hne hdrop]
    simp
  · intro hemp
    rw [hemp] at hm
    rw [parse_osm_relations_singleton, relationStep_mp_empty wt [] [] r [] h1 hm]
    simp

/-- Witness for C3 at `relBadDrop` over `wtA`: way 99 is absent, way 1 is
present, the retry succeeds and the relation row is emitted. -/
theorem relation_missing_member_degraded_witness :
    (relTypeOf relBadDrop = some "multipolygon"
      ∧ (∃ i ∈ memberWayIds relBadDrop, lookupRow wtA i = none)
      ∧ ∀ i ∈ memberWayIds relBadDrop, ∀ row, lookupRow wtA i = some row →
          ∃ g, row.geometry = some (Geom.polygon g))
    ∧ ((presentRings wtA (memberWayIds relBadDrop) ≠ [] →
        (parse_osm_relations [relBadDrop] wtA).1
          = wtA ++ [(relBadDrop.id, mkRelRow relBadDrop (memberWayIds relBadDrop)
              (memberNodes wtA (memberWayIds relBadDrop))
              (presentRings wtA (memberWayIds relBadDrop)))])
      ∧ (presentRings wtA (memberWayIds relBadDrop) = [] →
          (parse_osm_relations [relBadDrop] wtA).1 = wtA)) := by
  have h3 : ∀ i ∈ memberWayIds relBadDrop, ∀ row, lookupRow wtA i = some row →
      ∃ g, row.geometry = some (Geom.polygon g) := by
    intro i hi row hrow
    have hi' : i = 1 ∨ i = 99 := by simpa [relBadDrop, memberWayIds] using hi
    rcases hi' with rfl | rfl
    · have : wayRowA = row := by
        injection (show some wayRowA = some row from hrow)
      exact ⟨[(0, 0), (1, 0), (0, 1)], by rw [← this]; rfl⟩
    · exact absurd (show (none : Option Row) = some row from hrow) (by simp)
  exact ⟨⟨rfl, ⟨99, by decide, rfl⟩, h3⟩,
    relation_missing_member_degraded relBadDrop wtA rfl ⟨99, by decide, rfl⟩ h3⟩

/-! ### Claim C9: the tags-required rule applies to nodes only -/

theorem assembleStep_untagged_node (coords : List (Nat × (ℚ × ℚ)))
    (st : List (Nat × Row) × List (Nat × Row) × List Element × List LogEvent)
    (a : Element) (hty : a.type = "node") (htag : a.tags? = none) :
    assembleStep coords st a = .ok st := by
  obtain ⟨pn, pw, rels, logs⟩ := st
  simp [assembleStep, hty, htag]

theorem foldlM_untagged_nodes (coords : List (Nat × (ℚ × ℚ))) (els : List Element)
    (st : List (Nat × Row) × List (Nat × Row) × List Element × List LogEvent)
    (h : ∀ el ∈ els, el.type = "node" ∧ el.tags? = none) :
    els.foldlM (assembleStep coords) st = .ok st := by
  induction els generalizing st with
  | nil => rfl
  | cons a t ih =>
    obtain ⟨hty, htag⟩ := h a (List.mem_cons_self a t)
    rw [List.foldlM_cons, assembleStep_untagged_node coords st a hty htag]
    exact ih st (fun el hel => h el (List.mem_cons_of_mem a hel))

theorem parse_polygonal_poi_ok (coords : List (Nat × (ℚ × ℚ))) (wy : Element)
    (cs : List (ℚ × ℚ)) (ring : List (ℚ × ℚ))
    (hw : wy.type = "way")
    (hres : collectSome (fun nd => lookupRow coords nd) wy.nodes = some cs)
    (hpoly : mkPolygon (cs.map (fun c => (c.2, c.1))) = some ring) :
    parse_polygonal_poi coords wy
      = (some { osmid := wy.id, element_type := none,
                geometry := some (.polygon ring), nodes := some (.ids wy.nodes),
                ways := none, tags := wy.tags?.getD [] }, []) := by
  simp [parse_polygonal_poi, hw, hres, hpoly]

/-- The standalone output row an untagged way produces: geometry, osmid,
node list, element-kind "way", and no tag columns. -/
def standaloneWayRow (wy : Element) (ring : List (ℚ × ℚ)) : Row :=
  { osmid := wy.id, element_type := some "way", geometry := some (.polygon ring),
    nodes := some (.ids wy.nodes), ways := none, tags := [] }

/-- C9. In assembling the output table, node elements without a `tags` key
never yield an output row, whereas a way element without a `tags` key whose
geometry resolves still yields a standalone output row, with geometry,
osmid, node list, element-kind "way" and no tag columns: for a response of
untagged nodes plus one untagged way, the assembled table is exactly the
one way row. -/
theorem tags_required_nodes_only (nodeElems : List Element) (wy : Element)
    (cmap : List (Nat × (ℚ × ℚ))) (cs : List (ℚ × ℚ)) (ring : List (ℚ × ℚ))
    (hn : ∀ el ∈ nodeElems, el.type = "node" ∧ el.tags? = none)
    (hw1 : wy.type = "way") (hw2 : wy.tags? = none)
    (hc : parse_nodes_coords (nodeElems ++ [wy]) = .ok cmap)
    (hres : collectSome (fun nd => lookupRow cmap nd) wy.nodes = some cs)
    (hpoly : mkPolygon (cs.map (fun c => (c.2, c.1))) = some ring) :
    create_poi_gdf_assemble (nodeElems ++ [wy])
      = .ok ([(wy.id, standaloneWayRow wy ring)], []) := by
  have hstep : assembleStep cmap ([], [], [], []) wy
      = .ok ([], [(wy.id, standaloneWayRow wy ring)], [], []) := by
    have hnotnode : ¬(wy.type = "node" ∧ wy.tags?.isSome) := by
      simp [hw1]
    simp [assembleStep, hnotnode, hw1, parse_polygonal_poi_ok cmap wy cs ring hw1 hres hpoly,
      dictInsert, hw2, standaloneWayRow]
  have hfold : (nodeElems ++ [wy]).foldlM (assembleStep cmap) ([], [], [], [])
      = .ok ([], [(wy.id, standaloneWayRow wy ring)], [], []) := by
    rw [List.foldlM_append, foldlM_untagged_nodes cmap nodeElems _ hn]
    show [wy].foldlM (assembleStep cmap) ([], [], [], []) = _
    rw [List.foldlM_cons, hstep]
    rfl
  simp only [create_poi_gdf_assemble, Bind.bind, Except.bind, hc, hfold]
  simp [parse_osm_relations, pure, Except.pure]

/-- Fixture for C9: three untagged nodes carrying coordinates. -/
def nodesC9 : List Element :=
  [{ type := "node", id := 1, lat? := some 0, lon? := some 0, nodes := [],
     members := [], tags? := none },
   { type := "node", id := 2, lat? := some 0, lon? := some 1, nodes := [],
     members := [], tags? := none },
   { type := "node", id := 3, lat? := some 1, lon? := some 1, nodes := [],
     members := [], tags? := none }]

/-- Fixture for C9: an untagged way over those three nodes. -/
def wayC9 : Element :=
  { type := "way", id := 9, lat? := none, lon? := none, nodes := [1, 2, 3],
    members := [], tags? := none }

/-- Witness for C9 at three untagged nodes and one untagged way. -/
theorem tags_required_nodes_only_witness :
    ((∀ el ∈ nodesC9, el.type = "node" ∧ el.tags? = none)
      ∧ wayC9.type = "way" ∧ wayC9.tags? = none
      ∧ parse_nodes_coords (nodesC9 ++ [wayC9])
          = .ok [(1, ((0 : ℚ), (0 : ℚ))), (2, (0, 1)), (3, (1, 1))]
      ∧ collectSome (fun nd => lookupRow [(1, ((0 : ℚ), (0 : ℚ))), (2, (0, 1)), (3, (1, 1))] nd)
          wayC9.nodes = some [(0, 0), (0, 1), (1, 1)]
      ∧ mkPolygon ([((0 : ℚ), (0 : ℚ)), (0, 1), (1, 1)].map (fun c => (c.2, c.1)))
          = some [(0, 0), (1, 0), (1, 1)])
    ∧ create_poi_gdf_assemble (nodesC9 ++ [wayC9])
      = .ok ([(wayC9.id, standaloneWayRow wayC9 [(0, 0), (1, 0), (1, 1)])], []) :=
  ⟨⟨by decide, rfl, rfl, rfl, rfl, rfl⟩,
   tags_required_nodes_only nodesC9 wayC9 _ [(0, 0), (0, 1), (1, 1)] [(0, 0), (1, 0), (1, 1)]
     (by decide) rfl rfl rfl rfl rfl⟩

end Pois